import Mathlib

/-!
# Verification of the ipmitool output-parsing engine (collector.go)

Shallow embedding of the parsing and classification core of the exporter's
`collector.go`.  Strings are modelled as `List Char` (Lean's `String` is a
structure over `List Char`; the entry points take `String` and work on
`.data`).  Conventions:

* Go panics (out-of-range slice indexing on short split results or on a `nil`
  regex match) are modelled by an `Option` result, `none` meaning the call
  faults.  Functions of the source that cannot fault return plain values.
* Go `error` values are modelled by `Option (List Char)` carrying the
  offending text (`strconv` errors wrap the input string); `none` is Go `nil`.
* `float64` is modelled by `GoFloat`: either NaN, an infinity, or an exact
  rational.  The widening `float64(uint64)` — the subject of a claim — is
  modelled bit-exactly by `float64OfNat` (round to nearest, ties to even).
  The value produced by a *decimal* `strconv.ParseFloat` is kept as the exact
  decimal rational; Go would round it to the nearest binary64, but no claim
  about this program depends on the rounding of the decimal path.  The
  overflow/underflow `ErrRange` boundaries of `ParseFloat` are modelled at
  the round-to-nearest boundaries (|q| ≥ 2^1024 − 2^970 overflows,
  0 < |q| ≤ 2^(−1075) underflows to zero), both reported as errors, matching
  the callers which only test `err != nil`.
* `bufio.Scanner` with `ScanLines` is modelled by `splitLines` (final `\r`
  of each line stripped, a trailing newline produces no extra empty line).
  The scanner's 64 KiB maximum token size is not modelled; no claim depends
  on the behaviour at over-long lines.
* The regular expressions of the source are constant; each is translated to
  a dedicated matching function with Go's leftmost-first semantics.

The source file contains two generations of the engine separated by a
marker; definitions below follow the second (current) generation, and the
first generation's sensor parser is embedded separately as `…V1` for the
equivalence claim.
-/

/-- Character class `\s` of Go's regexp (RE2 Perl class): `[\t\n\f\r ]`. -/
def isSpaceB (c : Char) : Bool :=
  c = ' ' || c = '\t' || c = '\n' || c = '\x0c' || c = '\r'

/-- Go's `lower(c)`: `c | ('x' - 'X')`, i.e. set bit 0x20. -/
def lowerC (c : Char) : Char :=
  Char.ofNat (c.toNat ||| 0x20)

/-- Digit value as in Go's `strconv` loops: `0-9`, or a letter meaning 10-35
(after lowering); `none` for any other character. -/
def digitVal (c : Char) : Option Nat :=
  if '0' ≤ c && c ≤ '9' then some (c.toNat - '0'.toNat)
  else if 'a' ≤ lowerC c && lowerC c ≤ 'z' then some ((lowerC c).toNat - 'a'.toNat + 10)
  else none

/-- Hexadecimal digit predicate (digit value defined and below 16). -/
def isHexDigitB (c : Char) : Bool :=
  match digitVal c with
  | some d => d < 16
  | none => false

/-- Strip a literal pattern from the front: `stripPre p r = some t` iff
`r = p ++ t`. -/
def stripPre : List Char → List Char → Option (List Char)
  | [], r => some r
  | _ :: _, [] => none
  | p :: ps, c :: cs => if c = p then stripPre ps cs else none

/-- Unanchored substring test (Go `regexp.MatchString` with a literal). -/
def containsSub (pat : List Char) : List Char → Bool
  | [] => (stripPre pat []).isSome
  | c :: cs => (stripPre pat (c :: cs)).isSome || containsSub pat cs

/-- Drop one trailing carriage return, as `bufio.ScanLines`' `dropCR`. -/
def dropCR (cs : List Char) : List Char :=
  match cs.reverse with
  | '\r' :: rest => rest.reverse
  | _ => cs

/-- Worker for `splitLines`: accumulates the current line (reversed). -/
def splitLinesGo : List Char → List Char → List (List Char)
  | [], acc => [dropCR acc.reverse]
  | c :: rest, acc =>
    if c = '\n' then
      dropCR acc.reverse ::
        (match rest with
         | [] => []
         | _ :: _ => splitLinesGo rest [])
    else splitLinesGo rest (c :: acc)

/-- The sequence of lines a `bufio.Scanner` with `ScanLines` yields: split at
`\n`, strip one final `\r` per line, no empty final token after a trailing
newline, no token at all for empty input. -/
def splitLines (cs : List Char) : List (List Char) :=
  match cs with
  | [] => []
  | _ :: _ => splitLinesGo cs []

/-- Go `strings.ReplaceAll(line, " ", "")`: removes space characters only. -/
def removeSpaces (cs : List Char) : List Char :=
  cs.filter (fun c => c ≠ ' ')

/-- Go `strings.Split` on a one-character separator: always at least one
field, number of fields = number of separators + 1. -/
def splitOnChar (sep : Char) : List Char → List (List Char)
  | [] => [[]]
  | c :: rest =>
    match splitOnChar sep rest with
    | [] => [[]]
    | h :: t => if c = sep then [] :: h :: t else (c :: h) :: t

/-- `underscoreOK` loop of Go `strconv`: `saw` is `^` at the start, `0` after
a digit (or the base prefix), `_` after an underscore, `!` otherwise. -/
def underscoreOKLoop (hex : Bool) (saw : Char) : List Char → Bool
  | [] => saw ≠ '_'
  | c :: rest =>
    if ('0' ≤ c && c ≤ '9') || (hex && 'a' ≤ lowerC c && lowerC c ≤ 'f') then
      underscoreOKLoop hex '0' rest
    else if c = '_' then
      if saw ≠ '0' then false else underscoreOKLoop hex '_' rest
    else if saw = '_' then false
    else underscoreOKLoop hex '!' rest

/-- Go `strconv.underscoreOK`: underscores only between digits or between a
base prefix and a digit. -/
def underscoreOK (s : List Char) : Bool :=
  let s1 := match s with
    | c :: rest => if c = '-' || c = '+' then rest else s
    | [] => s
  match s1 with
  | '0' :: c :: rest =>
    if lowerC c = 'b' || lowerC c = 'o' || lowerC c = 'x' then
      underscoreOKLoop (lowerC c = 'x') '0' rest
    else underscoreOKLoop false '^' s1
  | _ => underscoreOKLoop false '^' s1

/-- Accumulator of the `ParseUint` digit loop. -/
structure UintAcc where
  n : Nat
  under : Bool
  deriving DecidableEq

/-- Digit loop of Go `strconv.ParseUint` (`bitSize = 64`): per-step cutoff
and max-value checks; `none` covers both syntax and range errors (callers
only test `err != nil`). `base0` permits underscores. -/
def parseUintLoop (base : Nat) (base0 : Bool) (maxVal cutoff : Nat) :
    List Char → UintAcc → Option UintAcc
  | [], acc => some acc
  | c :: rest, acc =>
    if c = '_' && base0 then
      parseUintLoop base base0 maxVal cutoff rest ⟨acc.n, true⟩
    else
      match digitVal c with
      | none => none
      | some d =>
        if base ≤ d then none
        else if cutoff ≤ acc.n then none
        else
          let n1 := acc.n * base + d
          if maxVal < n1 then none else
          parseUintLoop base base0 maxVal cutoff rest ⟨n1, acc.under⟩

/-- Go `strconv.ParseUint(s, 0, 64)`: no sign allowed; base from the prefix
(`0b`/`0o`/`0x`, a bare leading `0` meaning octal), otherwise decimal;
underscores permitted subject to `underscoreOK`. `none` is any error. -/
def parseUint0 (s : List Char) : Option Nat :=
  match s with
  | [] => none
  | _ :: _ =>
    let p : Nat × List Char :=
      match s with
      | '0' :: c :: rest2 =>
        if rest2 ≠ [] && lowerC c = 'b' then (2, rest2)
        else if rest2 ≠ [] && lowerC c = 'o' then (8, rest2)
        else if rest2 ≠ [] && lowerC c = 'x' then (16, rest2)
        else (8, c :: rest2)
      | '0' :: [] => (8, [])
      | _ => (10, s)
    let base := p.1
    let digits := p.2
    let maxVal := 2 ^ 64 - 1
    let cutoff := maxVal / base + 1
    match parseUintLoop base true maxVal cutoff digits ⟨0, false⟩ with
    | none => none
    | some acc =>
      if acc.under && !underscoreOK s then none else some acc.n

/-- Model of a Go `float64` value: NaN, a signed infinity, or an exact
rational (see the header on where rounding is and is not modelled). -/
inductive GoFloat where
  | nan : GoFloat
  | inf (neg : Bool) : GoFloat
  | val (q : ℚ) : GoFloat
  deriving DecidableEq

/-- The strings `strconv.ParseFloat` reads as NaN: exactly the case variants
of `nan` (no sign permitted, per `strconv`'s `special`). -/
def isNanLit (s : List Char) : Bool :=
  s.map lowerC = ['n', 'a', 'n']

/-- The strings `ParseFloat` reads as an infinity: optional sign then `inf`
or `infinity`, case-insensitive; returns the sign. -/
def infLit (s : List Char) : Option Bool :=
  let p : Bool × List Char :=
    match s with
    | '+' :: t => (false, t)
    | '-' :: t => (true, t)
    | t => (false, t)
  if p.2.map lowerC = ['i', 'n', 'f'] || p.2.map lowerC = "infinity".data then
    some p.1
  else none

/-- Result of scanning a mantissa (Go `readFloat`'s digit loop): collected
digits, count of digits after the dot, whether any digit was seen, whether
an underscore was seen, and the unconsumed remainder. -/
structure MantScan where
  digits : List Char
  fracLen : Nat
  sawDig : Bool
  under : Bool
  rest : List Char

/-- Mantissa scan of Go `readFloat`: consumes digits (hex digits when `hex`),
at most one dot, and underscores; stops at the first other character. -/
def scanMant (hex : Bool) : List Char → List Char → Nat → Bool → Bool → Bool → MantScan
  | [], digs, frac, _, sawDig, under => ⟨digs.reverse, frac, sawDig, under, []⟩
  | c :: cs, digs, frac, sawDot, sawDig, under =>
    if c = '_' then scanMant hex cs digs frac sawDot sawDig true
    else if c = '.' then
      if sawDot then ⟨digs.reverse, frac, sawDig, under, c :: cs⟩
      else scanMant hex cs digs frac true sawDig under
    else if ('0' ≤ c && c ≤ '9') || (hex && isHexDigitB c) then
      scanMant hex cs (c :: digs) (if sawDot then frac + 1 else frac) sawDot true under
    else ⟨digs.reverse, frac, sawDig, under, c :: cs⟩

/-- Value of a digit string in a base (digits already validated). -/
def digitsVal (base : Nat) (ds : List Char) : Nat :=
  ds.foldl (fun a c => a * base + (digitVal c).getD 0) 0

/-- Exponent scan: optional sign, then at least one decimal digit, with
underscores; full consumption required.  Returns the signed exponent and
whether an underscore was seen. -/
def scanExp (s : List Char) : Option (Int × Bool) :=
  let p : Bool × List Char :=
    match s with
    | '+' :: t => (false, t)
    | '-' :: t => (true, t)
    | t => (false, t)
  let ds := p.2.filter (fun c => c ≠ '_')
  if p.2 = [] then none
  else if ds = [] then none
  else if ds.all (fun c => '0' ≤ c && c ≤ '9') && p.2.all (fun c => c = '_' || ('0' ≤ c && c ≤ '9')) then
    some (if p.1 then -(digitsVal 10 ds : Int) else (digitsVal 10 ds : Int), p.2.any (fun c => c = '_'))
  else none

/-- Range gate of `ParseFloat` (the callers treat `ErrRange` like any other
error): overflow at the round-to-infinity boundary `2^1024 − 2^970`,
underflow at the round-to-zero boundary `2^(−1075)`. -/
def floatRangeOK (q : ℚ) : Bool :=
  |q| < (2 : ℚ) ^ (1024 : ℕ) - (2 : ℚ) ^ (970 : ℕ) &&
    (q = 0 || (2 : ℚ) ^ (-(1075 : ℤ)) < |q|)

/-- The numeric part of Go `strconv.ParseFloat` (`readFloat` plus range
handling), requiring full consumption of the input: optional sign; either a
decimal mantissa with optional `e` exponent, or (with a `0x` prefix) a hex
mantissa with a required `p` exponent; underscores subject to
`underscoreOK`.  The value is the exact rational (see header). -/
def readFloatQ (s : List Char) : Option ℚ :=
  let sp : Bool × List Char :=
    match s with
    | '+' :: t => (false, t)
    | '-' :: t => (true, t)
    | t => (false, t)
  let neg := sp.1
  let body := sp.2
  let hx : Bool × List Char :=
    match body with
    | '0' :: c :: rest => if lowerC c = 'x' then (true, rest) else (false, body)
    | _ => (false, body)
  let hex := hx.1
  let m := scanMant hex hx.2 [] 0 false false false
  if !m.sawDig then none
  else
    let mant : ℚ := (digitsVal (if hex then 16 else 10) m.digits : ℚ)
    let expPart : Option (Int × Bool) :=
      match m.rest with
      | [] => if hex then none else some (0, false)
      | e :: cs =>
        if hex then
          if lowerC e = 'p' then scanExp cs else none
        else
          if lowerC e = 'e' then scanExp cs else none
    match expPart with
    | none => none
    | some (ex, underE) =>
      let q : ℚ :=
        if hex then
          mant * (2 : ℚ) ^ (ex - 4 * (m.fracLen : Int))
        else
          mant * (10 : ℚ) ^ (ex - (m.fracLen : Int))
      let q := if neg then -q else q
      if (m.under || underE) && !underscoreOK s then none
      else if floatRangeOK q then some q else none

/-- Go `strconv.ParseFloat(s, 64)`: specials first (`nan`, signed
infinities), then the numeric grammar; `none` is any error (syntax or
range), which is all the callers inspect. -/
def parseFloat (s : List Char) : Option GoFloat :=
  if isNanLit s then some .nan
  else
    match infLit s with
    | some neg => some (.inf neg)
    | none =>
      match readFloatQ s with
      | some q => some (.val q)
      | none => none

/-- Fueled binary logarithm (structural recursion so that the kernel can
evaluate it); with `fuel ≥ n` it equals `⌊log₂ n⌋`. -/
def natLog2F : Nat → Nat → Nat
  | 0, _ => 0
  | fuel + 1, n => if 2 ≤ n then natLog2F fuel (n / 2) + 1 else 0

/-- The conversion `float64(u)` for `u : uint64`: round to nearest with ties
to even at 53 significand bits.  Exact below `2^53`; the uint64 range is far
inside the float64 exponent range, so no overflow occurs. -/
def float64OfNat (n : Nat) : Nat :=
  if n < 2 ^ 53 then n
  else
    let e := natLog2F n n - 52
    let q := n / 2 ^ e
    let r := n % 2 ^ e
    let half := 2 ^ (e - 1)
    if r < half then q * 2 ^ e
    else if half < r then (q + 1) * 2 ^ e
    else if q % 2 = 0 then q * 2 ^ e else (q + 1) * 2 ^ e

/-! ## Record types (collector.go lines 659-689) -/

/-- `sensorData`: one row of the pipe-table sensor listing. -/
structure sensorData where
  Name : List Char
  Value : GoFloat
  «Type» : List Char
  State : List Char
  deriving DecidableEq

/-- `fwumData`: one row of the firmware listing (`Value` is a `float64`). -/
structure fwumData where
  Name : List Char
  Value : GoFloat
  deriving DecidableEq

/-- `fruData`: one row of the FRU listing. -/
structure fruData where
  Name : List Char
  Value : List Char
  deriving DecidableEq

/-- `bmcData`: one row of the BMC identity listing. -/
structure bmcData where
  Name : List Char
  Value : List Char
  deriving DecidableEq

/-- `lanData`: one row of the LAN configuration listing. -/
structure lanData where
  Name : List Char
  Value : List Char
  deriving DecidableEq

/-- `dcmiPowerData`: one DCMI power reading. -/
structure dcmiPowerData where
  Name : List Char
  Value : GoFloat
  deriving DecidableEq

/-! ## splitSensorOutput (second generation, lines 944-976) -/

/-- The value field of a sensor line: field 1 of the pipe split of the
space-stripped line (`none` when the split has fewer than two fields, which
the source indexes out of range). -/
def valueField (l : List Char) : Option (List Char) :=
  (splitOnChar '|' (removeSpaces l))[1]?

/-- Outcome of one iteration of the `splitSensorOutput` loop. -/
inductive SensorLineRes where
  | empty : SensorLineRes
  | panic : SensorLineRes
  | convFail (v : List Char) : SensorLineRes
  | emit (d : sensorData) (resetErr : Bool) : SensorLineRes
  deriving DecidableEq

/-- Fields 2 and 3 are read only after the value has been decoded, so a
short line whose value field fails to convert is skipped, not a fault. -/
def sensorAfterValue (fs : List (List Char)) (v : GoFloat) (resetErr : Bool) :
    SensorLineRes :=
  match fs[2]?, fs[3]? with
  | some ty, some st => .emit ⟨fs.headI, v, ty, st⟩ resetErr
  | _, _ => .panic

/-- One iteration of the `splitSensorOutput` loop on one line.  The source's
branch pair `valueS != "na" && convErr != nil` / `valueS != "na" && convErr
== nil` / `else` is rendered as: `na` first (the `else` holds exactly when
`valueS == "na"`), then on the integer parse result.  On a float-parse
failure the iteration `continue`s with the error recorded (`convFail`); on a
float-parse success the shared `err` variable is reset (`resetErr`). -/
def sensorLine (l : List Char) : SensorLineRes :=
  if l = [] then .empty
  else
    match (splitOnChar '|' (removeSpaces l))[1]? with
    | none => .panic
    | some vS =>
      if vS = "na".data then
        sensorAfterValue (splitOnChar '|' (removeSpaces l)) .nan false
      else
        match parseUint0 vS with
        | some n =>
          sensorAfterValue (splitOnChar '|' (removeSpaces l))
            (.val (float64OfNat n)) false
        | none =>
          match parseFloat vS with
          | none => .convFail vS
          | some v => sensorAfterValue (splitOnChar '|' (removeSpaces l)) v true

/-- Loop state of `splitSensorOutput`: accumulated records and the shared
`err` variable (only ever written by the `ParseFloat` branch). -/
structure SensorState where
  recs : List sensorData
  err : Option (List Char)
  deriving DecidableEq

/-- Applies one line to the loop state; `none` models the index panic. -/
def sensorStep (st : SensorState) (l : List Char) : Option SensorState :=
  match sensorLine l with
  | .empty => some st
  | .panic => none
  | .convFail v => some ⟨st.recs, some v⟩
  | .emit d r => some ⟨st.recs ++ [d], if r then none else st.err⟩

/-- The `splitSensorOutput` loop over a list of lines. -/
def parseSensorLines : List (List Char) → SensorState → Option SensorState
  | [], st => some st
  | l :: ls, st =>
    match sensorStep st l with
    | none => none
    | some st1 => parseSensorLines ls st1

/-- `splitSensorOutput` (second generation): records in line order plus the
final value of `err`; `none` models an index panic on a short line. -/
def splitSensorOutput (s : String) : Option (List sensorData × Option (List Char)) :=
  (parseSensorLines (splitLines s.data) ⟨[], none⟩).map fun st => (st.recs, st.err)

/-! ## splitSensorOutput, first generation (lines 271-303).  The two
generations differ only in trailing whitespace in the source; they are
embedded twice so their equivalence is a theorem about two definitions. -/

/-- First-generation copy of `sensorAfterValue`. -/
def sensorAfterValueV1 (fs : List (List Char)) (v : GoFloat) (resetErr : Bool) :
    SensorLineRes :=
  match fs[2]?, fs[3]? with
  | some ty, some st => .emit ⟨fs.headI, v, ty, st⟩ resetErr
  | _, _ => .panic

/-- First-generation copy of `sensorLine`. -/
def sensorLineV1 (l : List Char) : SensorLineRes :=
  if l = [] then .empty
  else
    match (splitOnChar '|' (removeSpaces l))[1]? with
    | none => .panic
    | some vS =>
      if vS = "na".data then
        sensorAfterValueV1 (splitOnChar '|' (removeSpaces l)) .nan false
      else
        match parseUint0 vS with
        | some n =>
          sensorAfterValueV1 (splitOnChar '|' (removeSpaces l))
            (.val (float64OfNat n)) false
        | none =>
          match parseFloat vS with
          | none => .convFail vS
          | some v => sensorAfterValueV1 (splitOnChar '|' (removeSpaces l)) v true

/-- First-generation copy of `sensorStep`. -/
def sensorStepV1 (st : SensorState) (l : List Char) : Option SensorState :=
  match sensorLineV1 l with
  | .empty => some st
  | .panic => none
  | .convFail v => some ⟨st.recs, some v⟩
  | .emit d r => some ⟨st.recs ++ [d], if r then none else st.err⟩

/-- First-generation copy of the loop. -/
def parseSensorLinesV1 : List (List Char) → SensorState → Option SensorState
  | [], st => some st
  | l :: ls, st =>
    match sensorStepV1 st l with
    | none => none
    | some st1 => parseSensorLinesV1 ls st1

/-- `splitSensorOutput`, first generation (lines 271-303). -/
def splitSensorOutputV1 (s : String) : Option (List sensorData × Option (List Char)) :=
  (parseSensorLinesV1 (splitLines s.data) ⟨[], none⟩).map fun st => (st.recs, st.err)

/-! ## splitFwumOutput (lines 1050-1074) -/

/-- The `splitFwumOutput` loop: every line appends a record — a colon line
appends the parsed pair, any other line (blank included) appends the zero
value `{Name: "", Value: 0}` — except that a float-parse failure returns the
records accumulated so far together with the error, immediately.  The
regex-`":"` test of the source is the split having at least two fields. -/
def parseFwumLines : List (List Char) → List fwumData → List fwumData × Option (List Char)
  | [], acc => (acc, none)
  | l :: ls, acc =>
    let trimmed := removeSpaces l
    match splitOnChar ':' trimmed with
    | f0 :: f1 :: _ =>
      match parseFloat f1 with
      | none => (acc, some f1)
      | some v => parseFwumLines ls (acc ++ [⟨f0, v⟩])
    | _ => parseFwumLines ls (acc ++ [⟨[], .val 0⟩])

/-- `splitFwumOutput`. -/
def splitFwumOutput (s : String) : List fwumData × Option (List Char) :=
  parseFwumLines (splitLines s.data) []

/-! ## Regex helpers for the anchored key/value dialects -/

/-- One `\s` (exactly one whitespace character). -/
def oneWs : List Char → Option (List Char)
  | c :: t => if isSpaceB c then some t else none
  | [] => none

/-- Literal words separated by single `\s`, anchored at the given position;
returns the remainder after the last word. -/
def wordsSeq : List (List Char) → List Char → Option (List Char)
  | [], r => some r
  | [w], r => stripPre w r
  | w :: ws, r =>
    match stripPre w r with
    | none => none
    | some r1 =>
      match oneWs r1 with
      | none => none
      | some r2 => wordsSeq ws r2

/-- Tail `\s*:\s*(?P<value>.*)` shared by the key/value regexes: skip
whitespace, a colon, skip whitespace, capture the rest of the line. -/
def tailColonCapture (r : List Char) : Option (List Char) :=
  match r.dropWhile isSpaceB with
  | ':' :: t => some (t.dropWhile isSpaceB)
  | _ => none

/-- An anchored `^w1\sw2…\s*:\s*(.*)` matcher. -/
def kvMatch (ws : List (List Char)) (l : List Char) : Option (List Char) :=
  match wordsSeq ws l with
  | none => none
  | some r => tailColonCapture r

/-- Leftmost unanchored search with a matcher that inspects a suffix. -/
def searchMatch (f : List Char → Option (List Char)) : List Char → Option (List Char)
  | [] => f []
  | c :: cs =>
    match f (c :: cs) with
    | some v => some v
    | none => searchMatch f cs

/-! ## splitFruOutput (lines 1131-1162) -/

/-- `fruBoardDateRegex` at one position: `\sBoard\sMfg\sDate\s*:\s*(.*)`. -/
def fruBoardDateAt (r : List Char) : Option (List Char) :=
  match oneWs r with
  | none => none
  | some r1 => kvMatch ["Board".data, "Mfg".data, "Date".data] r1

/-- `fruBoardDateRegex.FindStringSubmatch`: unanchored, leftmost match. -/
def fruBoardDateMatch (l : List Char) : Option (List Char) :=
  searchMatch fruBoardDateAt l

/-- The `splitFruOutput` loop; `none` models the index panic on a non-blank
line that has no colon and no board-date match. -/
def parseFruLines : List (List Char) → List fruData → Option (List fruData)
  | [], acc => some acc
  | l :: ls, acc =>
    if l = [] then parseFruLines ls acc
    else
      match fruBoardDateMatch l with
      | some v => parseFruLines ls (acc ++ [⟨"BoardMfgDate".data, v⟩])
      | none =>
        match splitOnChar ':' (removeSpaces l) with
        | f0 :: f1 :: _ => parseFruLines ls (acc ++ [⟨f0, f1⟩])
        | _ => none

/-- `splitFruOutput`; the error result of the source is always `nil`, so it
is omitted; `none` models the index panic. -/
def splitFruOutput (s : String) : Option (List fruData) :=
  parseFruLines (splitLines s.data) []

/-! ## splitBmcOutput (lines 1076-1129) -/

/-- Loop state: accumulated records, and whether the `break` after a
manufacturer match has stopped the scan. -/
structure BmcState where
  recs : List bmcData
  stopped : Bool
  deriving DecidableEq

/-- One iteration of the `splitBmcOutput` loop: three anchored patterns
tried in order; the manufacturer arm `break`s out of the scan. -/
def bmcStep (st : BmcState) (l : List Char) : BmcState :=
  if st.stopped then st
  else if l = [] then st
  else
    match kvMatch ["Firmware".data, "Revision".data] l with
    | some v => ⟨st.recs ++ [⟨"FirmwareRevision".data, v⟩], false⟩
    | none =>
      match kvMatch ["IPMI".data, "Version".data] l with
      | some v => ⟨st.recs ++ [⟨"IPMIVersion".data, v⟩], false⟩
      | none =>
        match kvMatch ["Manufacturer".data, "Name".data] l with
        | some v => ⟨st.recs ++ [⟨"Manufacturer".data, v⟩], true⟩
        | none => st

/-- The `splitBmcOutput` loop from a given state. -/
def parseBmcLines (ls : List (List Char)) (st : BmcState) : BmcState :=
  ls.foldl bmcStep st

/-- `splitBmcOutput` (its error result is always `nil`). -/
def splitBmcOutput (s : String) : List bmcData :=
  (parseBmcLines (splitLines s.data) ⟨[], false⟩).recs

/-! ## splitLANOutput (lines 1164-1255) -/

/-- `802.1q\sVLAN\s<label>\s*:\s*(.*)` — the dot of the source pattern is a
regex any-character. -/
def vlanMatch (label : List Char) (l : List Char) : Option (List Char) :=
  match stripPre "802".data l with
  | none => none
  | some r1 =>
    match r1 with
    | [] => none
    | _ :: r2 =>
      match stripPre "1q".data r2 with
      | none => none
      | some r3 =>
        match oneWs r3 with
        | none => none
        | some r4 => kvMatch ["VLAN".data, label] r4

/-- Loop state of `splitLANOutput` (the VLAN-priority arm `break`s). -/
structure LanState where
  recs : List lanData
  stopped : Bool
  deriving DecidableEq

/-- One iteration of the `splitLANOutput` loop: six anchored patterns in
source order; the IP-source value has its spaces removed. -/
def lanStep (st : LanState) (l : List Char) : LanState :=
  if st.stopped then st
  else if l = [] then st
  else
    match kvMatch ["IP".data, "Address".data, "Source".data] l with
    | some v => ⟨st.recs ++ [⟨"IPSource".data, removeSpaces v⟩], false⟩
    | none =>
      match kvMatch ["Subnet".data, "Mask".data] l with
      | some v => ⟨st.recs ++ [⟨"SubnetMask".data, v⟩], false⟩
      | none =>
        match kvMatch ["MAC".data, "Address".data] l with
        | some v => ⟨st.recs ++ [⟨"MACAddress".data, v⟩], false⟩
        | none =>
          match kvMatch ["Default".data, "Gateway".data, "IP".data] l with
          | some v => ⟨st.recs ++ [⟨"DefaultGateway".data, v⟩], false⟩
          | none =>
            match vlanMatch "ID".data l with
            | some v => ⟨st.recs ++ [⟨"VLANID".data, v⟩], false⟩
            | none =>
              match vlanMatch "Priority".data l with
              | some v => ⟨st.recs ++ [⟨"VLANPriority".data, v⟩], true⟩
              | none => st

/-- The `splitLANOutput` loop from a given state. -/
def parseLanLines (ls : List (List Char)) (st : LanState) : LanState :=
  ls.foldl lanStep st

/-- `splitLANOutput` (its error result is always `nil`). -/
def splitLANOutput (s : String) : List lanData :=
  (parseLanLines (splitLines s.data) ⟨[], false⟩).recs

/-! ## splitDcmiPowerOutput (lines 978-1048) -/

/-- Splits off the text before the last occurrence of the literal ` Watts`;
`none` when the literal does not occur. -/
def splitAtLastWatts : List Char → Option (List Char)
  | [] => none
  | c :: rest =>
    match splitAtLastWatts rest with
    | some pre => some (c :: pre)
    | none =>
      if (stripPre " Watts".data (c :: rest)).isSome then some [] else none

/-- Backtracking worker for the tail `\s*(?P<value>.*) Watts`: the greedy
`\s*` takes as many whitespace characters as still leave a ` Watts`
occurrence for the greedy capture. -/
def dcmiCaptureGo : Nat → List Char → Option (List Char)
  | k, r =>
    match splitAtLastWatts (r.drop k) with
    | some pre => some pre
    | none =>
      match k with
      | 0 => none
      | k1 + 1 =>
        match k1 with
        | _ => dcmiCaptureGo k1 r

/-- Capture of the DCMI patterns after the colon: `\s*(?P<value>.*) Watts`
with leftmost-first greedy semantics. -/
def dcmiCapture (r : List Char) : Option (List Char) :=
  dcmiCaptureGo (r.takeWhile isSpaceB).length r

/-- A DCMI pattern `^\s*w1\sw2…\s*(?P<value>.*) Watts` (the last word
carries the colon). -/
def dcmiMatch (ws : List (List Char)) (l : List Char) : Option (List Char) :=
  match wordsSeq ws (l.dropWhile isSpaceB) with
  | none => none
  | some r => dcmiCapture r

/-- `dcmiAvgPowerRegex` (line 653). -/
def dcmiAvgMatch (l : List Char) : Option (List Char) :=
  dcmiMatch ["Average".data, "power".data, "reading".data, "over".data,
    "sample".data, "period:".data] l

/-- `dcmiInstaPowerRegex` (line 654). -/
def dcmiInstaMatch (l : List Char) : Option (List Char) :=
  dcmiMatch ["Instantaneous".data, "power".data, "reading:".data] l

/-- `dcmiMinPowerRegex` (line 655). -/
def dcmiMinMatch (l : List Char) : Option (List Char) :=
  dcmiMatch ["Minimum".data, "during".data, "sampling".data, "period:".data] l

/-- `dcmiMaxPowerRegex` (line 656). -/
def dcmiMaxMatch (l : List Char) : Option (List Char) :=
  dcmiMatch ["Maximum".data, "during".data, "sampling".data, "period:".data] l

/-- Loop state of `splitDcmiPowerOutput`: records and the shared `err`
variable, written by each `ParseFloat` call. -/
structure DcmiState where
  recs : List dcmiPowerData
  err : Option (List Char)
  deriving DecidableEq

/-- One pattern block of the loop: on a match, parse the capture — failure
records the error and appends nothing (the `continue`), success resets the
error and appends the record. -/
def dcmiBlock (m : Option (List Char)) (nm : List Char) (st : DcmiState) : DcmiState :=
  match m with
  | none => st
  | some cap =>
    match parseFloat cap with
    | none => ⟨st.recs, some cap⟩
    | some v => ⟨st.recs ++ [⟨nm, v⟩], none⟩

/-- One iteration of the `splitDcmiPowerOutput` loop: the four pattern
blocks in source order (average, minimum, maximum, instantaneous). -/
def dcmiStep (st : DcmiState) (l : List Char) : DcmiState :=
  if l = [] then st
  else
    dcmiBlock (dcmiInstaMatch l) "Instantaneous power consumption".data
      (dcmiBlock (dcmiMaxMatch l) "Max power consumption".data
        (dcmiBlock (dcmiMinMatch l) "Min power consumption".data
          (dcmiBlock (dcmiAvgMatch l) "Avg power consumption".data st)))

/-- The `splitDcmiPowerOutput` loop from a given state. -/
def parseDcmiLines (ls : List (List Char)) (st : DcmiState) : DcmiState :=
  ls.foldl dcmiStep st

/-- `splitDcmiPowerOutput`: records in line order plus the final `err`. -/
def splitDcmiPowerOutput (s : String) : List dcmiPowerData × Option (List Char) :=
  let st := parseDcmiLines (splitLines s.data) ⟨[], none⟩
  (st.recs, st.err)

/-! ## getChassisPowerState (second generation, lines 1257-1272) -/

/-- `ipmiCurrentPowerRegex` (line 643): `^Chassis\s*Power\s*is\s*(?P<value>
on|off*)`; returns the capture.  The alternation is leftmost-first: `on` is
tried before `of` followed by greedy `f*`. -/
def chassisPowerMatch (l : List Char) : Option (List Char) :=
  match stripPre "Chassis".data l with
  | none => none
  | some r1 =>
    match stripPre "Power".data (r1.dropWhile isSpaceB) with
    | none => none
    | some r3 =>
      match stripPre "is".data (r3.dropWhile isSpaceB) with
      | none => none
      | some r5 =>
        let r6 := r5.dropWhile isSpaceB
        match stripPre "on".data r6 with
        | some _ => some "on".data
        | none =>
          match stripPre "of".data r6 with
          | some t => some ('o' :: 'f' :: t.takeWhile (fun c => c = 'f'))
          | none => none

/-- The `getChassisPowerState` scan over lines: on a non-blank line the
source indexes `FindStringSubmatch(line)[1]` without a nil check, so a line
that does not match the pattern is a panic (`none`); a capture `on` returns
1 at once; otherwise the scan continues, returning 0 at the end. -/
def chassisPowerLines : List (List Char) → Option Int
  | [] => some 0
  | l :: ls =>
    if l = [] then chassisPowerLines ls
    else
      match chassisPowerMatch l with
      | none => none
      | some v => if v = "on".data then some 1 else chassisPowerLines ls

/-- `getChassisPowerState` (second generation); `none` models the index
panic on a non-matching non-blank line. -/
def getChassisPowerState (s : String) : Option Int :=
  chassisPowerLines (splitLines s.data)

/-! ## Severity and unit classification inside collectSensorMonitoring
(second generation, lines 1330-1384) -/

/-- The state switch (lines 1333-1353): severity ordinal as a `float64`;
`na` and every unrecognized code map to NaN. -/
def stateSeverity (st : List Char) : GoFloat :=
  if st = "ok".data then .val 0
  else if st = "cr".data then .val 1
  else if st = "nr".data then .val 2
  else if st = "nc".data then .val 3
  else if st = "ns".data then .val 4
  else if st = "0x0000".data then .val 0
  else if st = "0x0100".data then .val 1
  else if st = "na".data then .nan
  else .nan

/-- The metric families a sensor record can be dispatched to. -/
inductive SensorClass where
  | fanSpeed : SensorClass
  | temperature : SensorClass
  | current : SensorClass
  | voltage : SensorClass
  | power : SensorClass
  | chassisIntrusion : SensorClass
  | chassisPowerDevice : SensorClass
  | generic : SensorClass
  deriving DecidableEq

/-- `regexp.MatchString("ChassisIntru", name)`: unanchored literal. -/
def matchChassisIntru (name : List Char) : Bool :=
  containsSub "ChassisIntru".data name

/-- `PS\dStatus*` at one position: `PS`, a digit, then `Statu` (the trailing
`s*` can match zero characters). -/
def psStatusAt (r : List Char) : Bool :=
  match stripPre "PS".data r with
  | some (d :: r2) => d.isDigit && (stripPre "Statu".data r2).isSome
  | _ => false

/-- `regexp.MatchString` with `PS\dStatus*`: unanchored search. -/
def matchPSStatus : List Char → Bool
  | [] => psStatusAt []
  | c :: cs => psStatusAt (c :: cs) || matchPSStatus cs

/-- The type switch of `collectSensorMonitoring` (lines 1355-1384), as the
metric family a record is sent to; `none` means no metric is emitted at all
— which happens exactly for a `discrete` record whose name matches neither
name pattern (the `discrete` arm has no fallback).  In this generation both
arms of each inner `err` test emit the same metric, so the match alone
decides.  Note the units are compared against the space-stripped `Type`
field, so the `degrees C` arm is unreachable from `splitSensorOutput`
output; the switch is embedded as written. -/
def classifySensor (d : sensorData) : Option SensorClass :=
  if d.«Type» = "RPM".data then some .fanSpeed
  else if d.«Type» = "degrees C".data then some .temperature
  else if d.«Type» = "Ampers".data then some .current
  else if d.«Type» = "Volts".data then some .voltage
  else if d.«Type» = "Watts".data then some .power
  else if d.«Type» = "discrete".data then
    if matchChassisIntru d.Name then some .chassisIntrusion
    else if matchPSStatus d.Name then some .chassisPowerDevice
    else none
  else some .generic

/-! ## Helper lemmas -/

/-- `stripPre` succeeds exactly on literal prefixes. -/
theorem stripPre_eq_some {p r t : List Char} (h : stripPre p r = some t) :
    r = p ++ t := by
  induction p generalizing r with
  | nil => simp [stripPre] at h; simp [h]
  | cons a ps ih =>
    cases r with
    | nil => simp [stripPre] at h
    | cons c cs =>
      by_cases hc : c = a
      · subst hc
        simp only [stripPre, if_pos rfl] at h
        simpa using ih h
      · simp [stripPre, hc] at h

/-- A successful `wordsSeq` starts with its first word. -/
theorem wordsSeq_head {w : List Char} {ws : List (List Char)} {r t : List Char}
    (h : wordsSeq (w :: ws) r = some t) : ∃ u, r = w ++ u := by
  cases ws with
  | nil => exact ⟨t, stripPre_eq_some h⟩
  | cons w2 ws2 =>
    simp only [wordsSeq] at h
    rcases hs : stripPre w r with _ | r1
    · rw [hs] at h; exact absurd h (by simp)
    · exact ⟨r1, stripPre_eq_some hs⟩

/-- `sensorStep` can only append records. -/
theorem sensorStep_recs {st st1 : SensorState} {l : List Char}
    (h : sensorStep st l = some st1) : ∃ t, st1.recs = st.recs ++ t := by
  unfold sensorStep at h
  rcases hl : sensorLine l with _ | _ | v | ⟨d, r⟩
  all_goals rw [hl] at h
  · exact ⟨[], by simp at h; simp [← h]⟩
  · simp at h
  · exact ⟨[], by simp at h; simp [← h]⟩
  · exact ⟨[d], by simp at h; simp [← h]⟩

/-- The records component of the sensor loop does not depend on the error
component of the state (the `err` variable feeds no branch). -/
theorem parseSensorLines_err_indep (ls : List (List Char)) :
    ∀ (recs : List sensorData) (e1 e2 : Option (List Char)),
    (parseSensorLines ls ⟨recs, e1⟩).map SensorState.recs =
      (parseSensorLines ls ⟨recs, e2⟩).map SensorState.recs := by
  induction ls with
  | nil => intro recs e1 e2; rfl
  | cons l ls ih =>
    intro recs e1 e2
    simp only [parseSensorLines, sensorStep]
    rcases hl : sensorLine l with _ | _ | v | ⟨d, r⟩
    · exact ih recs e1 e2
    · rfl
    · rfl
    · cases r
      · exact ih (recs ++ [d]) e1 e2
      · rfl

/-! ## Claim theorems -/

/-- C2 (code bug): `getChassisPowerState` does not return the default 0 for
every no-match input — the source indexes `FindStringSubmatch(line)[1]`
without a nil check, so the first non-blank line that does not match the
`Chassis Power is …` pattern is an index panic (modelled `none`).  Empty
input and an `off` line do return the default 0 as the claim says. -/
theorem getChassisPowerState_panics_on_no_match :
    getChassisPowerState "no data" = none ∧
    getChassisPowerState "" = some 0 ∧
    getChassisPowerState "Chassis Power is off" = some 0 := by
  refine ⟨by decide, by decide, by decide⟩

/-- C4 (code bug): a structurally short line is an index fault, not a
`MalformedLine` error — a sensor line with fewer than 4 pipe fields whose
value field converts panics at field 2 (here `a|1`), and a FRU line with no
colon panics at field 1 (here `abc`).  Both are modelled `none`. -/
theorem short_line_panics :
    splitSensorOutput "a|1" = none ∧ splitFruOutput "abc" = none := by
  refine ⟨by decide, by decide⟩

/-- C1 counterexample: the value field `nan` (not the sentinel `na`) also
yields a NaN record value, because `strconv.ParseFloat` accepts `nan`;
so "value is NaN iff the field is exactly `na`" is false. -/
theorem sensor_nan_literal_counterexample :
    splitSensorOutput "a|nan|b|c" =
      some ([⟨"a".data, .nan, "b".data, "c".data⟩], none) ∧
    valueField "a|nan|b|c".data = some "nan".data ∧
    "nan".data ≠ "na".data := by
  refine ⟨by decide, by decide, by decide⟩

/-- C7 counterexample: the hex literal `0x20000000000001` has value
`2^53 + 1`, which is not representable in a `float64`; the widening rounds
it (ties to even) to `2^53`, so "widened to float exactly, with no rounding,
for every such literal" is false. -/
theorem sensor_hex_rounding_counterexample :
    splitSensorOutput "a|0x20000000000001|b|c" =
      some ([⟨"a".data, .val ((9007199254740992 : ℕ) : ℚ), "b".data, "c".data⟩], none) ∧
    digitsVal 16 "20000000000001".data = 9007199254740993 ∧
    GoFloat.val ((9007199254740992 : ℕ) : ℚ) ≠ .val ((9007199254740993 : ℕ) : ℚ) := by
  refine ⟨by decide, by decide, by decide⟩

/-- C8 counterexample: `splitFwumOutput` does not skip blank lines — a
single blank line appends the zero-value record `{Name: "", Value: 0}`. -/
theorem fwum_blank_line_counterexample :
    splitFwumOutput "\n" = ([⟨[], .val 0⟩], none) ∧
    ([⟨[], .val 0⟩] : List fwumData) ≠ [] := by
  refine ⟨by decide, by decide⟩

/-- C5: the state-code severity lookup of `collectSensorMonitoring` is a
total deterministic function: the eight listed codes map as specified, every
other string maps to NaN, and the NaN result is distinct from the
`Unspecified` ordinal 4. -/
theorem stateSeverity_total :
    stateSeverity "ok".data = .val 0 ∧
    stateSeverity "cr".data = .val 1 ∧
    stateSeverity "nr".data = .val 2 ∧
    stateSeverity "nc".data = .val 3 ∧
    stateSeverity "ns".data = .val 4 ∧
    stateSeverity "0x0000".data = .val 0 ∧
    stateSeverity "0x0100".data = .val 1 ∧
    stateSeverity "na".data = .nan ∧
    (∀ s : List Char,
      s ∉ ["ok".data, "cr".data, "nr".data, "nc".data, "ns".data,
        "0x0000".data, "0x0100".data, "na".data] → stateSeverity s = .nan) ∧
    GoFloat.nan ≠ .val 4 := by
  refine ⟨by decide, by decide, by decide, by decide, by decide, by decide,
    by decide, by decide, ?_, by decide⟩
  intro s hs
  simp only [List.mem_cons, List.mem_singleton, not_or] at hs
  obtain ⟨h1, h2, h3, h4, h5, h6, h7, h8⟩ := hs
  simp [stateSeverity, h1, h2, h3, h4, h5, h6, h7, h8]

/-- Witness for C5's unrecognized-code arm at the concrete code `zz`. -/
theorem stateSeverity_total_witness :
    ("zz".data ∉ ["ok".data, "cr".data, "nr".data, "nc".data, "ns".data,
      "0x0000".data, "0x0100".data, "na".data]) ∧
    stateSeverity "zz".data = .nan :=
  ⟨by decide, (stateSeverity_total.2.2.2.2.2.2.2.2.1) "zz".data (by decide)⟩

/-- C6 counterexample: a `discrete`-unit record whose name matches neither
name pattern produces no metric at all (the `discrete` switch arm has no
fallback), rather than falling into the Generic category as claimed. -/
theorem discrete_unmatched_counterexample :
    classifySensor ⟨"Foo".data, .val 0, "discrete".data, "ok".data⟩ = none ∧
    (none : Option SensorClass) ≠ some .generic := by
  refine ⟨by decide, by decide⟩

/-- C6 amended: a unit of exactly `discrete` is classified ChassisIntrusion
when the name matches `ChassisIntru` (regardless of state and value),
otherwise ChassisPowerDevice when the name matches `PS\dStatus*`, and
otherwise the record is dropped (no metric — not Generic); any unit string
outside the switch's six cases is classified Generic. -/
theorem classifySensor_discrete (n st : List Char) (v : GoFloat) :
    (matchChassisIntru n = true →
      classifySensor ⟨n, v, "discrete".data, st⟩ = some .chassisIntrusion) ∧
    (matchChassisIntru n = false → matchPSStatus n = true →
      classifySensor ⟨n, v, "discrete".data, st⟩ = some .chassisPowerDevice) ∧
    (matchChassisIntru n = false → matchPSStatus n = false →
      classifySensor ⟨n, v, "discrete".data, st⟩ = none) ∧
    (∀ ty : List Char,
      ty ∉ ["RPM".data, "degrees C".data, "Ampers".data, "Volts".data,
        "Watts".data, "discrete".data] →
      classifySensor ⟨n, v, ty, st⟩ = some .generic) := by
  refine ⟨?_, ?_, ?_, ?_⟩
  · intro h; simp [classifySensor, h]
  · intro h1 h2; simp [classifySensor, h1, h2]
  · intro h1 h2; simp [classifySensor, h1, h2]
  · intro ty hty
    simp only [List.mem_cons, List.mem_singleton, not_or] at hty
    obtain ⟨h1, h2, h3, h4, h5, h6⟩ := hty
    simp [classifySensor, h1, h2, h3, h4, h5, h6]

/-- Witness for C6 at a chassis-intrusion name with a discrete state code:
the record is classified ChassisIntrusion. -/
theorem classifySensor_discrete_witness :
    matchChassisIntru "ChassisIntru1".data = true ∧
    classifySensor ⟨"ChassisIntru1".data, .val 0, "discrete".data,
      "0x0000".data⟩ = some .chassisIntrusion :=
  ⟨by decide,
    (classifySensor_discrete "ChassisIntru1".data "0x0000".data (.val 0)).1
      (by decide)⟩

/-- `parseFloat` yields NaN exactly for the `nan` literals: the special
branch is the only NaN producer, the infinity branch and the numeric path
produce other constructors. -/
theorem parseFloat_nan_char (s : List Char) :
    parseFloat s = some .nan ↔ isNanLit s = true := by
  unfold parseFloat
  by_cases h : isNanLit s = true
  · simp [h]
  · simp only [h, Bool.false_eq_true, if_false, if_neg]
    rcases hi : infLit s with _ | b
    · rcases hr : readFloatQ s with _ | q <;> simp [h]
    · simp [h]

/-- A successful `sensorAfterValue` carries the decoded value into the
emitted record. -/
theorem sensorAfterValue_emit {fs : List (List Char)} {v : GoFloat}
    {r0 r : Bool} {d : sensorData}
    (h : sensorAfterValue fs v r0 = .emit d r) : d.Value = v := by
  unfold sensorAfterValue at h
  rcases h2 : fs[2]? with _ | ty <;> rw [h2] at h <;>
    rcases h3 : fs[3]? with _ | st <;> try rw [h3] at h
  all_goals simp at h
  obtain ⟨hd, _⟩ := h
  rw [← hd]

/-- C1 amended: for every sensor line that produces a record, the record's
value is NaN iff the stripped value field is the sentinel `na`, or it is not
an unsigned-integer literal and `ParseFloat` returns NaN — which happens
exactly for the case variants of the literal `nan`.  (The original claim
admitted only `na`; the `nan` literal is the forced exception.) -/
theorem sensor_value_nan_iff (l : List Char) (d : sensorData) (r : Bool)
    (vS : List Char)
    (hline : sensorLine l = .emit d r) (hfield : valueField l = some vS) :
    (d.Value = .nan ↔
      vS = "na".data ∨ (parseUint0 vS = none ∧ parseFloat vS = some .nan)) ∧
    (∀ s : List Char, parseFloat s = some .nan ↔ isNanLit s = true) := by
  refine ⟨?_, parseFloat_nan_char⟩
  unfold valueField at hfield
  unfold sensorLine at hline
  by_cases hl0 : l = []
  · rw [if_pos hl0] at hline; simp at hline
  · rw [if_neg hl0] at hline
    simp only [hfield] at hline
    by_cases hna : vS = "na".data
    · rw [if_pos hna] at hline
      have hv := sensorAfterValue_emit hline
      simp [hv, hna]
    · rw [if_neg hna] at hline
      rcases hpu : parseUint0 vS with _ | n <;> rw [hpu] at hline
      · rcases hpf : parseFloat vS with _ | v <;> rw [hpf] at hline
        · simp at hline
        · have hv := sensorAfterValue_emit hline
          simp [hv, hna, hpf]
      · have hv := sensorAfterValue_emit hline
        simp [hv, hna, hpu]

/-- Witness for C1 at the sentinel line `x|na|u|ok`: the record's value is
NaN and the equivalence holds with the left disjunct. -/
theorem sensor_value_nan_iff_witness :
    sensorLine "x|na|u|ok".data =
      .emit ⟨"x".data, .nan, "u".data, "ok".data⟩ false ∧
    valueField "x|na|u|ok".data = some "na".data ∧
    ((sensorData.mk "x".data .nan "u".data "ok".data).Value = .nan ↔
      "na".data = "na".data ∨
        (parseUint0 "na".data = none ∧ parseFloat "na".data = some .nan)) :=
  ⟨by decide, by decide,
    (sensor_value_nan_iff "x|na|u|ok".data
      ⟨"x".data, .nan, "u".data, "ok".data⟩ false "na".data
      (by decide) (by decide)).1⟩

/-- C3: the conversion-error policy asymmetry.  For the firmware dialect a
value that fails the float parse terminates `splitFwumOutput` at once: only
the records accumulated before the offending line are returned, together
with the error.  For the sensor dialect a line whose value fails to convert
(`convFail`) changes no records: the parse continues and the record
sequence equals that of the input without the offending line. -/
theorem conversion_error_policy :
    (∀ (bad f0 f1 : List Char) (fs l2 : List (List Char)) (acc : List fwumData),
      splitOnChar ':' (removeSpaces bad) = f0 :: f1 :: fs →
      parseFloat f1 = none →
      parseFwumLines (bad :: l2) acc = (acc, some f1)) ∧
    (∀ (bad v : List Char) (l2 : List (List Char)) (st : SensorState),
      sensorLine bad = .convFail v →
      (parseSensorLines (bad :: l2) st).map SensorState.recs =
        (parseSensorLines l2 st).map SensorState.recs) := by
  constructor
  · intro bad f0 f1 fs l2 acc hsplit hpf
    simp only [parseFwumLines]
    rw [hsplit]
    simp [hpf]
  · intro bad v l2 st hline
    simp only [parseSensorLines, sensorStep]
    rw [hline]
    exact parseSensorLines_err_indep l2 st.recs (some v) st.err

/-- Witness for C3: the firmware line `a:x` aborts before `b:1` is parsed;
the sensor line `a|xyz` is skipped and `b|1|u|ok` still parsed. -/
theorem conversion_error_policy_witness :
    splitOnChar ':' (removeSpaces "a:x".data) = ["a".data, "x".data] ∧
    parseFloat "x".data = none ∧
    parseFwumLines ["a:x".data, "b:1".data] [] = ([], some "x".data) ∧
    sensorLine "a|xyz".data = .convFail "xyz".data ∧
    (parseSensorLines ["a|xyz".data, "b|1|u|ok".data] ⟨[], none⟩).map
        SensorState.recs =
      (parseSensorLines ["b|1|u|ok".data] ⟨[], none⟩).map SensorState.recs :=
  ⟨by decide, by decide,
    conversion_error_policy.1 "a:x".data "a".data "x".data [] ["b:1".data] []
      (by decide) (by decide),
    by decide,
    conversion_error_policy.2 "a|xyz".data "xyz".data ["b|1|u|ok".data]
      ⟨[], none⟩ (by decide)⟩

/-- C10: the two generations of `splitSensorOutput` present in the source
(lines 271-303 and 944-976) are extensionally equal: identical record
sequences and identical error results on every input. -/
theorem sensor_generations_equal :
    ∀ s : String, splitSensorOutputV1 s = splitSensorOutput s := by
  have hline : ∀ l, sensorLineV1 l = sensorLine l := fun _ => rfl
  have hstep : ∀ st l, sensorStepV1 st l = sensorStep st l := by
    intro st l
    simp only [sensorStepV1, sensorStep, hline]
  have hlines : ∀ ls st, parseSensorLinesV1 ls st = parseSensorLines ls st := by
    intro ls
    induction ls with
    | nil => intro st; rfl
    | cons l ls ih =>
      intro st
      simp only [parseSensorLinesV1, parseSensorLines, hstep]
      rcases h : sensorStep st l with _ | st1 <;> simp [h, ih]
  intro s
  simp [splitSensorOutputV1, splitSensorOutput, hlines]

/-- A blank line leaves the sensor loop state unchanged. -/
theorem sensorStep_blank (st : SensorState) : sensorStep st [] = some st := rfl

/-- A blank line leaves the BMC loop state unchanged. -/
theorem bmcStep_blank (st : BmcState) : bmcStep st [] = st := by
  simp [bmcStep]

/-- A blank line leaves the LAN loop state unchanged. -/
theorem lanStep_blank (st : LanState) : lanStep st [] = st := by
  simp [lanStep]

/-- A blank line leaves the DCMI loop state unchanged. -/
theorem dcmiStep_blank (st : DcmiState) : dcmiStep st [] = st := rfl

/-- Inserting a blank line anywhere leaves the sensor parse unchanged. -/
theorem parseSensorLines_blank (l1 : List (List Char)) :
    ∀ (l2 : List (List Char)) (st : SensorState),
    parseSensorLines (l1 ++ [] :: l2) st = parseSensorLines (l1 ++ l2) st := by
  induction l1 with
  | nil =>
    intro l2 st
    simp only [List.nil_append, parseSensorLines, sensorStep_blank]
  | cons l l1 ih =>
    intro l2 st
    simp only [List.cons_append, parseSensorLines]
    rcases h : sensorStep st l with _ | st1 <;> simp [h, ih]

/-- Inserting a blank line anywhere leaves the FRU parse unchanged. -/
theorem parseFruLines_blank (l1 : List (List Char)) :
    ∀ (l2 : List (List Char)) (acc : List fruData),
    parseFruLines (l1 ++ [] :: l2) acc = parseFruLines (l1 ++ l2) acc := by
  induction l1 with
  | nil => intro l2 acc; rfl
  | cons l l1 ih =>
    intro l2 acc
    by_cases hl : l = []
    · subst hl; exact ih l2 acc
    · show parseFruLines (l :: (l1 ++ [] :: l2)) acc =
        parseFruLines (l :: (l1 ++ l2)) acc
      simp only [parseFruLines, if_neg hl]
      rcases hb : fruBoardDateMatch l with _ | v <;> simp only [hb]
      · rcases hsp : splitOnChar ':' (removeSpaces l) with _ | ⟨f0, _ | ⟨f1, fs⟩⟩ <;>
          simp only [hsp]
        all_goals first
          | rfl
          | exact ih l2 _
      · exact ih l2 _

/-- Inserting a blank line anywhere leaves the BMC parse unchanged. -/
theorem parseBmcLines_blank (l1 l2 : List (List Char)) (st : BmcState) :
    parseBmcLines (l1 ++ [] :: l2) st = parseBmcLines (l1 ++ l2) st := by
  simp [parseBmcLines, List.foldl_append, bmcStep_blank]

/-- Inserting a blank line anywhere leaves the LAN parse unchanged. -/
theorem parseLanLines_blank (l1 l2 : List (List Char)) (st : LanState) :
    parseLanLines (l1 ++ [] :: l2) st = parseLanLines (l1 ++ l2) st := by
  simp [parseLanLines, List.foldl_append, lanStep_blank]

/-- Inserting a blank line anywhere leaves the DCMI parse unchanged. -/
theorem parseDcmiLines_blank (l1 l2 : List (List Char)) (st : DcmiState) :
    parseDcmiLines (l1 ++ [] :: l2) st = parseDcmiLines (l1 ++ l2) st := by
  simp [parseDcmiLines, List.foldl_append, dcmiStep_blank]

/-- The sensor loop only appends records. -/
theorem parseSensorLines_recs (ls : List (List Char)) :
    ∀ (st res : SensorState), parseSensorLines ls st = some res →
    ∃ t, res.recs = st.recs ++ t := by
  induction ls with
  | nil =>
    intro st res h
    simp [parseSensorLines] at h
    exact ⟨[], by simp [← h]⟩
  | cons l ls ih =>
    intro st res h
    simp only [parseSensorLines] at h
    rcases hs : sensorStep st l with _ | st1 <;> rw [hs] at h
    · simp at h
    · obtain ⟨t1, e1⟩ := sensorStep_recs hs
      obtain ⟨t2, e2⟩ := ih st1 res h
      exact ⟨t1 ++ t2, by rw [e2, e1]; simp⟩

/-- The FRU loop only appends records. -/
theorem parseFruLines_recs (ls : List (List Char)) :
    ∀ (acc res : List fruData), parseFruLines ls acc = some res →
    ∃ t, res = acc ++ t := by
  induction ls with
  | nil =>
    intro acc res h
    simp [parseFruLines] at h
    exact ⟨[], by simp [← h]⟩
  | cons l ls ih =>
    intro acc res h
    simp only [parseFruLines] at h
    by_cases hl : l = []
    · rw [if_pos hl] at h
      exact ih acc res h
    · rw [if_neg hl] at h
      rcases hb : fruBoardDateMatch l with _ | v <;> simp only [hb] at h
      · rcases hsp : splitOnChar ':' (removeSpaces l) with _ | ⟨f0, _ | ⟨f1, fs⟩⟩ <;>
          simp only [hsp] at h
        · simp at h
        · simp at h
        · obtain ⟨t, e⟩ := ih _ res h
          exact ⟨⟨f0, f1⟩ :: t, by simp [e]⟩
      · obtain ⟨t, e⟩ := ih _ res h
        exact ⟨⟨"BoardMfgDate".data, v⟩ :: t, by simp [e]⟩

/-- The firmware loop only appends records. -/
theorem parseFwumLines_recs (ls : List (List Char)) :
    ∀ acc : List fwumData, ∃ t, (parseFwumLines ls acc).1 = acc ++ t := by
  induction ls with
  | nil => intro acc; exact ⟨[], by simp [parseFwumLines]⟩
  | cons l ls ih =>
    intro acc
    simp only [parseFwumLines]
    rcases hsp : splitOnChar ':' (removeSpaces l) with _ | ⟨f0, _ | ⟨f1, fs⟩⟩ <;>
      simp only [hsp]
    · obtain ⟨t, e⟩ := ih (acc ++ [⟨[], .val 0⟩])
      exact ⟨⟨[], .val 0⟩ :: t, by simp [e]⟩
    · obtain ⟨t, e⟩ := ih (acc ++ [⟨[], .val 0⟩])
      exact ⟨⟨[], .val 0⟩ :: t, by simp [e]⟩
    · rcases hpf : parseFloat f1 with _ | v <;> simp only [hpf]
      · exact ⟨[], by simp⟩
      · obtain ⟨t, e⟩ := ih (acc ++ [⟨f0, v⟩])
        exact ⟨⟨f0, v⟩ :: t, by simp [e]⟩

/-- One BMC iteration only appends records. -/
theorem bmcStep_recs (st : BmcState) (l : List Char) :
    ∃ t, (bmcStep st l).recs = st.recs ++ t := by
  unfold bmcStep
  repeat' split
  all_goals first
    | exact ⟨[], (List.append_nil _).symm⟩
    | exact ⟨_, rfl⟩

/-- One LAN iteration only appends records. -/
theorem lanStep_recs (st : LanState) (l : List Char) :
    ∃ t, (lanStep st l).recs = st.recs ++ t := by
  unfold lanStep
  repeat' split
  all_goals first
    | exact ⟨[], (List.append_nil _).symm⟩
    | exact ⟨_, rfl⟩

/-- One DCMI pattern block only appends records. -/
theorem dcmiBlock_recs (m : Option (List Char)) (nm : List Char) (st : DcmiState) :
    ∃ t, (dcmiBlock m nm st).recs = st.recs ++ t := by
  unfold dcmiBlock
  repeat' split
  all_goals first
    | exact ⟨[], (List.append_nil _).symm⟩
    | exact ⟨_, rfl⟩

/-- One DCMI iteration only appends records. -/
theorem dcmiStep_recs (st : DcmiState) (l : List Char) :
    ∃ t, (dcmiStep st l).recs = st.recs ++ t := by
  by_cases hl : l = []
  · exact ⟨[], by simp [dcmiStep, hl]⟩
  · obtain ⟨t1, e1⟩ := dcmiBlock_recs (dcmiAvgMatch l) "Avg power consumption".data st
    obtain ⟨t2, e2⟩ := dcmiBlock_recs (dcmiMinMatch l) "Min power consumption".data
      (dcmiBlock (dcmiAvgMatch l) "Avg power consumption".data st)
    obtain ⟨t3, e3⟩ := dcmiBlock_recs (dcmiMaxMatch l) "Max power consumption".data
      (dcmiBlock (dcmiMinMatch l) "Min power consumption".data
        (dcmiBlock (dcmiAvgMatch l) "Avg power consumption".data st))
    obtain ⟨t4, e4⟩ := dcmiBlock_recs (dcmiInstaMatch l)
      "Instantaneous power consumption".data
      (dcmiBlock (dcmiMaxMatch l) "Max power consumption".data
        (dcmiBlock (dcmiMinMatch l) "Min power consumption".data
          (dcmiBlock (dcmiAvgMatch l) "Avg power consumption".data st)))
    refine ⟨t1 ++ (t2 ++ (t3 ++ t4)), ?_⟩
    simp only [dcmiStep, if_neg hl]
    rw [e4, e3, e2, e1]
    simp

/-- The BMC loop only appends records. -/
theorem parseBmcLines_recs (ls : List (List Char)) :
    ∀ st : BmcState, ∃ t, (parseBmcLines ls st).recs = st.recs ++ t := by
  induction ls with
  | nil => intro st; exact ⟨[], by simp [parseBmcLines]⟩
  | cons l ls ih =>
    intro st
    obtain ⟨t1, e1⟩ := bmcStep_recs st l
    obtain ⟨t2, e2⟩ := ih (bmcStep st l)
    refine ⟨t1 ++ t2, ?_⟩
    simp only [parseBmcLines, List.foldl_cons] at e2 ⊢
    rw [e2, e1]
    simp

/-- The LAN loop only appends records. -/
theorem parseLanLines_recs (ls : List (List Char)) :
    ∀ st : LanState, ∃ t, (parseLanLines ls st).recs = st.recs ++ t := by
  induction ls with
  | nil => intro st; exact ⟨[], by simp [parseLanLines]⟩
  | cons l ls ih =>
    intro st
    obtain ⟨t1, e1⟩ := lanStep_recs st l
    obtain ⟨t2, e2⟩ := ih (lanStep st l)
    refine ⟨t1 ++ t2, ?_⟩
    simp only [parseLanLines, List.foldl_cons] at e2 ⊢
    rw [e2, e1]
    simp

/-- The DCMI loop only appends records. -/
theorem parseDcmiLines_recs (ls : List (List Char)) :
    ∀ st : DcmiState, ∃ t, (parseDcmiLines ls st).recs = st.recs ++ t := by
  induction ls with
  | nil => intro st; exact ⟨[], by simp [parseDcmiLines]⟩
  | cons l ls ih =>
    intro st
    obtain ⟨t1, e1⟩ := dcmiStep_recs st l
    obtain ⟨t2, e2⟩ := ih (dcmiStep st l)
    refine ⟨t1 ++ t2, ?_⟩
    simp only [parseDcmiLines, List.foldl_cons] at e2 ⊢
    rw [e2, e1]
    simp

/-- C8 amended: five of the six dialect parsers skip blank lines (inserting
a blank line anywhere leaves their result unchanged), but `splitFwumOutput`
does not: a blank line appends the zero record `{Name: "", Value: 0}` (as
does any colon-free line).  All six parsers only ever append records while
scanning lines first to last, so records appear in source line order. -/
theorem blank_lines_and_order :
    (∀ (l1 l2 : List (List Char)) (st : SensorState),
      parseSensorLines (l1 ++ [] :: l2) st = parseSensorLines (l1 ++ l2) st) ∧
    (∀ (l1 l2 : List (List Char)) (acc : List fruData),
      parseFruLines (l1 ++ [] :: l2) acc = parseFruLines (l1 ++ l2) acc) ∧
    (∀ (l1 l2 : List (List Char)) (st : BmcState),
      parseBmcLines (l1 ++ [] :: l2) st = parseBmcLines (l1 ++ l2) st) ∧
    (∀ (l1 l2 : List (List Char)) (st : LanState),
      parseLanLines (l1 ++ [] :: l2) st = parseLanLines (l1 ++ l2) st) ∧
    (∀ (l1 l2 : List (List Char)) (st : DcmiState),
      parseDcmiLines (l1 ++ [] :: l2) st = parseDcmiLines (l1 ++ l2) st) ∧
    (∀ (ls : List (List Char)) (acc : List fwumData),
      parseFwumLines ([] :: ls) acc =
        parseFwumLines ls (acc ++ [⟨[], .val 0⟩])) ∧
    (∀ (ls : List (List Char)) (st res : SensorState),
      parseSensorLines ls st = some res → ∃ t, res.recs = st.recs ++ t) ∧
    (∀ (ls : List (List Char)) (acc res : List fruData),
      parseFruLines ls acc = some res → ∃ t, res = acc ++ t) ∧
    (∀ (ls : List (List Char)) (acc : List fwumData),
      ∃ t, (parseFwumLines ls acc).1 = acc ++ t) ∧
    (∀ (ls : List (List Char)) (st : BmcState),
      ∃ t, (parseBmcLines ls st).recs = st.recs ++ t) ∧
    (∀ (ls : List (List Char)) (st : LanState),
      ∃ t, (parseLanLines ls st).recs = st.recs ++ t) ∧
    (∀ (ls : List (List Char)) (st : DcmiState),
      ∃ t, (parseDcmiLines ls st).recs = st.recs ++ t) :=
  ⟨parseSensorLines_blank, parseFruLines_blank, parseBmcLines_blank,
    parseLanLines_blank, parseDcmiLines_blank, fun _ _ => rfl,
    parseSensorLines_recs, parseFruLines_recs, parseFwumLines_recs,
    parseBmcLines_recs, parseLanLines_recs, parseDcmiLines_recs⟩

/-- Witness for C8's hypothesis-bearing parts: a one-line sensor parse and a
one-line FRU parse, whose results extend the initial accumulator. -/
theorem blank_lines_and_order_witness :
    parseSensorLines ["a|1|u|ok".data] ⟨[], none⟩ =
      some ⟨[⟨"a".data, .val 1, "u".data, "ok".data⟩], none⟩ ∧
    (∃ t, (⟨[⟨"a".data, .val 1, "u".data, "ok".data⟩], none⟩ : SensorState).recs =
      ([] : List sensorData) ++ t) ∧
    parseFruLines ["a:b".data] [] = some [⟨"a".data, "b".data⟩] ∧
    (∃ t, [(⟨"a".data, "b".data⟩ : fruData)] = ([] : List fruData) ++ t) :=
  ⟨by decide,
    blank_lines_and_order.2.2.2.2.2.2.1 ["a|1|u|ok".data] ⟨[], none⟩
      ⟨[⟨"a".data, .val 1, "u".data, "ok".data⟩], none⟩ (by decide),
    by decide,
    blank_lines_and_order.2.2.2.2.2.2.2.1 ["a:b".data] []
      [⟨"a".data, "b".data⟩] (by decide)⟩

/-- A successful DCMI match forces the line (after leading whitespace) to
start with the pattern's first word. -/
theorem dcmiMatch_head {w : List Char} {ws : List (List Char)} {l v : List Char}
    (h : dcmiMatch (w :: ws) l = some v) :
    ∃ u, l.dropWhile isSpaceB = w ++ u := by
  unfold dcmiMatch at h
  rcases hw : wordsSeq (w :: ws) (l.dropWhile isSpaceB) with _ | r <;>
    rw [hw] at h
  · simp at h
  · exact wordsSeq_head hw

/-- The average and minimum patterns cannot both match. -/
theorem dcmi_avg_min_excl {l v1 v2 : List Char}
    (h1 : dcmiAvgMatch l = some v1) (h2 : dcmiMinMatch l = some v2) : False := by
  obtain ⟨u1, e1⟩ := dcmiMatch_head h1
  obtain ⟨u2, e2⟩ := dcmiMatch_head h2
  rw [e1] at e2
  rw [show "Average".data = 'A' :: "verage".data from rfl,
    show "Minimum".data = 'M' :: "inimum".data from rfl] at e2
  exact absurd e2 (by simp)

/-- The average and maximum patterns cannot both match. -/
theorem dcmi_avg_max_excl {l v1 v2 : List Char}
    (h1 : dcmiAvgMatch l = some v1) (h2 : dcmiMaxMatch l = some v2) : False := by
  obtain ⟨u1, e1⟩ := dcmiMatch_head h1
  obtain ⟨u2, e2⟩ := dcmiMatch_head h2
  rw [e1] at e2
  rw [show "Average".data = 'A' :: "verage".data from rfl,
    show "Maximum".data = 'M' :: "aximum".data from rfl] at e2
  exact absurd e2 (by simp)

/-- The average and instantaneous patterns cannot both match. -/
theorem dcmi_avg_insta_excl {l v1 v2 : List Char}
    (h1 : dcmiAvgMatch l = some v1) (h2 : dcmiInstaMatch l = some v2) : False := by
  obtain ⟨u1, e1⟩ := dcmiMatch_head h1
  obtain ⟨u2, e2⟩ := dcmiMatch_head h2
  rw [e1] at e2
  rw [show "Average".data = 'A' :: "verage".data from rfl,
    show "Instantaneous".data = 'I' :: "nstantaneous".data from rfl] at e2
  exact absurd e2 (by simp)

/-- The minimum and maximum patterns cannot both match. -/
theorem dcmi_min_max_excl {l v1 v2 : List Char}
    (h1 : dcmiMinMatch l = some v1) (h2 : dcmiMaxMatch l = some v2) : False := by
  obtain ⟨u1, e1⟩ := dcmiMatch_head h1
  obtain ⟨u2, e2⟩ := dcmiMatch_head h2
  rw [e1] at e2
  rw [show "Minimum".data = 'M' :: 'i' :: "nimum".data from rfl,
    show "Maximum".data = 'M' :: 'a' :: "ximum".data from rfl] at e2
  exact absurd e2 (by simp)

/-- The minimum and instantaneous patterns cannot both match. -/
theorem dcmi_min_insta_excl {l v1 v2 : List Char}
    (h1 : dcmiMinMatch l = some v1) (h2 : dcmiInstaMatch l = some v2) : False := by
  obtain ⟨u1, e1⟩ := dcmiMatch_head h1
  obtain ⟨u2, e2⟩ := dcmiMatch_head h2
  rw [e1] at e2
  rw [show "Minimum".data = 'M' :: "inimum".data from rfl,
    show "Instantaneous".data = 'I' :: "nstantaneous".data from rfl] at e2
  exact absurd e2 (by simp)

/-- The maximum and instantaneous patterns cannot both match. -/
theorem dcmi_max_insta_excl {l v1 v2 : List Char}
    (h1 : dcmiMaxMatch l = some v1) (h2 : dcmiInstaMatch l = some v2) : False := by
  obtain ⟨u1, e1⟩ := dcmiMatch_head h1
  obtain ⟨u2, e2⟩ := dcmiMatch_head h2
  rw [e1] at e2
  rw [show "Maximum".data = 'M' :: "aximum".data from rfl,
    show "Instantaneous".data = 'I' :: "nstantaneous".data from rfl] at e2
  exact absurd e2 (by simp)

/-- At most one of the four DCMI patterns matches any line. -/
theorem dcmi_excl (l : List Char) :
    ([dcmiAvgMatch l, dcmiMinMatch l, dcmiMaxMatch l, dcmiInstaMatch l].countP
      (fun o => o.isSome)) ≤ 1 := by
  rcases h1 : dcmiAvgMatch l with _ | v1 <;>
    rcases h2 : dcmiMinMatch l with _ | v2 <;>
    rcases h3 : dcmiMaxMatch l with _ | v3 <;>
    rcases h4 : dcmiInstaMatch l with _ | v4 <;>
    simp only [List.countP_cons, List.countP_nil, Option.isSome_some,
      Option.isSome_none, if_pos, if_neg, cond_true, cond_false] <;>
    first
    | decide
    | exact (dcmi_avg_min_excl h1 h2).elim
    | exact (dcmi_avg_max_excl h1 h3).elim
    | exact (dcmi_avg_insta_excl h1 h4).elim
    | exact (dcmi_min_max_excl h2 h3).elim
    | exact (dcmi_min_insta_excl h2 h4).elim
    | exact (dcmi_max_insta_excl h3 h4).elim

/-- A non-matching pattern block is the identity. -/
theorem dcmiBlock_none (nm : List Char) (st : DcmiState) :
    dcmiBlock none nm st = st := rfl

/-- A pattern block appends at most one record. -/
theorem dcmiBlock_len (m : Option (List Char)) (nm : List Char) (st : DcmiState) :
    (dcmiBlock m nm st).recs.length ≤ st.recs.length + 1 := by
  unfold dcmiBlock
  repeat' split
  all_goals simp

/-- Each line contributes at most one DCMI record. -/
theorem dcmiStep_len (st : DcmiState) (l : List Char) :
    (dcmiStep st l).recs.length ≤ st.recs.length + 1 := by
  by_cases hl : l = []
  · simp [dcmiStep, hl]
  · simp only [dcmiStep, if_neg hl]
    rcases h1 : dcmiAvgMatch l with _ | v1 <;>
      rcases h2 : dcmiMinMatch l with _ | v2 <;>
      rcases h3 : dcmiMaxMatch l with _ | v3 <;>
      rcases h4 : dcmiInstaMatch l with _ | v4
    all_goals first
      | exact (dcmi_avg_min_excl h1 h2).elim
      | exact (dcmi_avg_max_excl h1 h3).elim
      | exact (dcmi_avg_insta_excl h1 h4).elim
      | exact (dcmi_min_max_excl h2 h3).elim
      | exact (dcmi_min_insta_excl h2 h4).elim
      | exact (dcmi_max_insta_excl h3 h4).elim
      | (simp only [dcmiBlock_none]; exact dcmiBlock_len _ _ _)
      | simp [dcmiBlock_none]

/-- C9: the four anchored DCMI power patterns are mutually exclusive — every
line matches at most one, so each line contributes at most one record to
`splitDcmiPowerOutput`, and the matched records accumulate across the input
in line order (the loop state threads left to right over the lines). -/
theorem dcmi_patterns_exclusive :
    (∀ l : List Char,
      ([dcmiAvgMatch l, dcmiMinMatch l, dcmiMaxMatch l, dcmiInstaMatch l].countP
        (fun o => o.isSome)) ≤ 1) ∧
    (∀ (st : DcmiState) (l : List Char),
      (dcmiStep st l).recs.length ≤ st.recs.length + 1) ∧
    (∀ (l1 l2 : List (List Char)) (st : DcmiState),
      parseDcmiLines (l1 ++ l2) st = parseDcmiLines l2 (parseDcmiLines l1 st)) :=
  ⟨dcmi_excl, dcmiStep_len, fun l1 l2 st => by
    simp [parseDcmiLines, List.foldl_append]⟩

/-- The base-16 digit fold never decreases. -/
theorem foldl_hex_ge (ds : List Char) :
    ∀ n : Nat, n ≤ List.foldl (fun a c => a * 16 + (digitVal c).getD 0) n ds := by
  induction ds with
  | nil => intro n; simp
  | cons c ds ih =>
    intro n
    simp only [List.foldl_cons]
    have h1 : n ≤ n * 16 + (digitVal c).getD 0 := by omega
    exact le_trans h1 (ih _)

/-- On hex digits whose accumulated value stays below `2^64`, the
`ParseUint` digit loop computes the base-16 fold (cutoff and max checks
never fire). -/
theorem parseUintLoop_hex (ds : List Char) :
    ∀ n : Nat, (∀ c ∈ ds, isHexDigitB c = true) →
    List.foldl (fun a c => a * 16 + (digitVal c).getD 0) n ds < 2 ^ 64 →
    parseUintLoop 16 true (2 ^ 64 - 1) (2 ^ 60) ds ⟨n, false⟩ =
      some ⟨List.foldl (fun a c => a * 16 + (digitVal c).getD 0) n ds, false⟩ := by
  induction ds with
  | nil => intro n _ _; rfl
  | cons c ds ih =>
    intro n hhex hbound
    have hc : isHexDigitB c = true := hhex c (List.mem_cons_self c ds)
    obtain ⟨d, hd, hdlt⟩ : ∃ d, digitVal c = some d ∧ d < 16 := by
      unfold isHexDigitB at hc
      rcases hdv : digitVal c with _ | d <;> rw [hdv] at hc
      · simp at hc
      · exact ⟨d, rfl, by simpa using hc⟩
    have hne : ¬ c = '_' := by
      intro h
      rw [h, show digitVal '_' = none from by decide] at hd
      exact Option.noConfusion hd
    have hfold : List.foldl (fun a c => a * 16 + (digitVal c).getD 0) n (c :: ds) =
        List.foldl (fun a c => a * 16 + (digitVal c).getD 0) (n * 16 + d) ds := by
      simp [List.foldl_cons, hd]
    rw [hfold] at hbound ⊢
    have hge := foldl_hex_ge ds (n * 16 + d)
    have h64 : n * 16 + d < 2 ^ 64 := lt_of_le_of_lt hge hbound
    have e64 : (2 : Nat) ^ 64 = 18446744073709551616 := by norm_num
    have h64N : n * 16 + d < 18446744073709551616 := e64 ▸ h64
    have hcutN : ¬ (1152921504606846976 ≤ n) := by omega
    have hmaxN : ¬ (18446744073709551615 < n * 16 + d) := by omega
    have hstep : parseUintLoop 16 true (2 ^ 64 - 1) (2 ^ 60) (c :: ds) ⟨n, false⟩ =
        parseUintLoop 16 true (2 ^ 64 - 1) (2 ^ 60) ds ⟨n * 16 + d, false⟩ := by
      simp [parseUintLoop, hd, hne, not_le.mpr hdlt]
      rw [if_neg hcutN, if_neg hmaxN]
    rw [hstep]
    exact ih (n * 16 + d)
      (fun c2 hc2 => hhex c2 (List.mem_cons_of_mem c hc2)) hbound

/-- `strconv.ParseUint(s, 0, 64)` on `0x` followed by hex digits yields the
base-16 value, when it fits in a `uint64`. -/
theorem parseUint0_hex (ds : List Char) (hne : ds ≠ [])
    (hhex : ∀ c ∈ ds, isHexDigitB c = true)
    (hlt : digitsVal 16 ds < 2 ^ 64) :
    parseUint0 ('0' :: 'x' :: ds) = some (digitsVal 16 ds) := by
  rcases ds with _ | ⟨c0, ds2⟩
  · exact absurd rfl hne
  · have hredux : parseUint0 ('0' :: 'x' :: c0 :: ds2) =
        (match parseUintLoop 16 true (2 ^ 64 - 1) ((2 ^ 64 - 1) / 16 + 1)
            (c0 :: ds2) ⟨0, false⟩ with
         | none => none
         | some acc =>
           if acc.under && !underscoreOK ('0' :: 'x' :: c0 :: ds2) then none
           else some acc.n) := rfl
    have hcut : (2 ^ 64 - 1) / 16 + 1 = 2 ^ 60 := by norm_num
    rw [hredux, hcut]
    rw [parseUintLoop_hex (c0 :: ds2) 0 hhex hlt]
    simp [digitsVal]

/-- Below `2^53` the widening to `float64` is exact. -/
theorem float64OfNat_small {n : Nat} (h : n < 2 ^ 53) : float64OfNat n = n := by
  unfold float64OfNat
  rw [if_pos h]

/-- C7 amended: a sensor value field `0x` + hex digits (fitting a `uint64`)
is decoded by the integer path, and the record's value is the round-to-
nearest-even `float64` of that integer.  The widening is exact whenever the
integer is below `2^53`; above it, rounding can change the value (see the
counterexample at `2^53 + 1`). -/
theorem sensor_hex_value (ds l : List Char) (d : sensorData) (r : Bool)
    (hne : ds ≠ []) (hhex : ∀ c ∈ ds, isHexDigitB c = true)
    (hlt : digitsVal 16 ds < 2 ^ 64)
    (hline : sensorLine l = .emit d r)
    (hfield : valueField l = some ('0' :: 'x' :: ds)) :
    d.Value = .val (float64OfNat (digitsVal 16 ds)) ∧
      (digitsVal 16 ds < 2 ^ 53 → d.Value = .val (digitsVal 16 ds)) := by
  have hpu := parseUint0_hex ds hne hhex hlt
  unfold valueField at hfield
  unfold sensorLine at hline
  by_cases hl0 : l = []
  · rw [if_pos hl0] at hline; simp at hline
  · rw [if_neg hl0] at hline
    simp only [hfield] at hline
    have hna : ¬ ('0' :: 'x' :: ds = "na".data) := by
      rw [show "na".data = ['n', 'a'] from rfl]
      simp
    rw [if_neg hna] at hline
    simp only [hpu] at hline
    have hv := sensorAfterValue_emit hline
    refine ⟨hv, fun hsmall => ?_⟩
    rw [hv, float64OfNat_small hsmall]

/-- Witness for C7 at the line `a|0x1f|u|ok`: the hex literal `0x1f` decodes
to 31 exactly. -/
theorem sensor_hex_value_witness :
    ("1f".data ≠ []) ∧
    (∀ c ∈ "1f".data, isHexDigitB c = true) ∧
    digitsVal 16 "1f".data < 2 ^ 64 ∧
    sensorLine "a|0x1f|u|ok".data =
      .emit ⟨"a".data, .val 31, "u".data, "ok".data⟩ false ∧
    valueField "a|0x1f|u|ok".data = some ('0' :: 'x' :: "1f".data) ∧
    ((sensorData.mk "a".data (.val 31) "u".data "ok".data).Value =
        .val (float64OfNat (digitsVal 16 "1f".data)) ∧
      (digitsVal 16 "1f".data < 2 ^ 53 →
        (sensorData.mk "a".data (.val 31) "u".data "ok".data).Value =
          .val (digitsVal 16 "1f".data))) :=
  ⟨by decide, by decide, by decide, by decide, by decide,
    sensor_hex_value "1f".data "a|0x1f|u|ok".data
      ⟨"a".data, .val 31, "u".data, "ok".data⟩ false (by decide) (by decide)
      (by decide) (by decide) (by decide)⟩
